import Mathlib

/-!
Swagger model: validators, field bindings and `NewSwagger`.

A shallow embedding of `model/swagger_model.go`.

* Go strings are embedded as Lean `String`s (equality of strings is equality
  of their contents in both languages).
* A Go `error` is embedded as `Option Error`: `none` is the `nil` error.
* The dynamically typed argument `v interface{}` of the validators is embedded
  as the inductive type `Value`, which records what `reflect.ValueOf(v)`
  exposes to the code: the kind, the string contents, and for slices the
  result of `Index(i).String()` on every element.
-/

set_option linter.dupNamespace false

namespace Model

/-! ## Errors -/

/-- Error values that the model and the libraries it calls can produce. -/
inductive Error where
  /-- The value built by `errors.New(msg)` and by `fmt.Errorf(...)`. -/
  | errorString (msg : String)
  /-- The value `*json.SyntaxError`, with the byte offset of the failure. -/
  | SyntaxError (msg : String) (offset : Nat)
  /-- The value `*json.InvalidUnmarshalError`, with the name of the Go type
  of the rejected target. -/
  | InvalidUnmarshalError (typ : String)
  /-- The value `*json.UnmarshalTypeError`, with the offending field. -/
  | UnmarshalTypeError (field : String)
  deriving DecidableEq, Repr

/-! ## Dynamically typed values -/

/-- What `reflect.ValueOf(v)` shows of a Go value `v`. -/
inductive Value where
  /-- A value of kind `reflect.String` with its contents. -/
  | str (s : String)
  /-- A value of kind `reflect.Slice` whose elements are strings. -/
  | strSlice (xs : List String)
  /-- A value of kind `reflect.Slice` whose `len` elements have the
  non-string type named `elemType`. -/
  | otherSlice (elemType : String) (len : Nat)
  /-- A value of any other kind (bool, int, map, struct, pointer, nil, ...). -/
  | other
  deriving DecidableEq, Repr

/-- The strings `st.Index(i).String()` for `i = 0 .. st.Len()-1` of a slice.
On a non-string element `reflect.Value.String` returns `"<T Value>"`. -/
def Value.elemStrings : Value → List String
  | .strSlice xs => xs
  | .otherSlice elemType len => List.replicate len ("<" ++ elemType ++ " Value>")
  | _ => []

/-! ## The tables of valid values -/

def validSchemes : List String :=
  ["http", "https", "ws", "wss"]

def validFormats : List String :=
  ["int32", "int64", "float", "double", "string", "byte", "boolean", "date", "date-time"]

def validTypes : List String :=
  ["string", "number", "integer", "boolean", "array", "file"]

/-! ## Validators -/

/-- The loop `for i := 0; i < len(validValues); i++` of `isValidValue`,
as a recursion on the part of `validValues` still to be visited. -/
def isValidValue (value : String) : List String → Bool
  | [] => false
  | x :: rest => if value == x then true else isValidValue value rest

/-- The loop of the slice case of `validScheme`: `badSchemes` is the
accumulator, the list is the elements still to be visited. -/
def collectBadSchemes (badSchemes : List String) : List String → List String
  | [] => badSchemes
  | value :: rest =>
    if !isValidValue value validSchemes then
      collectBadSchemes (badSchemes ++ [value]) rest
    else
      collectBadSchemes badSchemes rest

/-- The validator `validScheme`.  The library call
`strings.Join(badSchemes, ",")` is `",".intercalate badSchemes`. -/
def validScheme (v : Value) (_param : String) : Option Error :=
  match v with
  | .str s =>
    if isValidValue s validSchemes then none
    else some (.errorString ("Invalid url scheme: '" ++ s ++ "'"))
  | .strSlice _ | .otherSlice _ _ =>
    let badSchemes := collectBadSchemes [] v.elemStrings
    if badSchemes.length > 0 then
      some (.errorString ("Invalid schemes: [" ++ ",".intercalate badSchemes ++ "]"))
    else none
  | .other => some (.errorString "validScheme only validates slices of strings or strings.")

def validFormat (v : Value) (_param : String) : Option Error :=
  match v with
  | .str s =>
    if isValidValue s validFormats then none
    else some (.errorString ("Invalid type format: '" ++ s ++ "'"))
  | _ => some (.errorString "validFormat only validates slices of strings or strings.")

def validType (v : Value) (_param : String) : Option Error :=
  match v with
  | .str s =>
    if isValidValue s validTypes then none
    else some (.errorString ("Invalid parameter type: '" ++ s ++ "'"))
  | _ => some (.errorString "validFormat only validates slices of strings or strings.")

/-! ## The record types of the document -/

structure Xml where
  Name : String
  Namespace : String
  Prefix : String
  Attribute : Bool
  Wrapped : Bool
  deriving DecidableEq, Repr

structure Schema where
  Ref : String
  Format : String
  Title : String
  Description : String
  Default : String
  Discriminator : String
  ReadOnly : Bool
  Xml : Option Xml
  deriving DecidableEq, Repr

structure ExternalDocumentation where
  Description : String
  Url : String
  deriving DecidableEq, Repr

/-- The record `Parameter`; the Go field `Type` is written `Type_`. -/
structure Parameter where
  Name : String
  In : String
  Description : String
  Required : Bool
  Schema : Option Schema
  Type_ : String
  Format : String
  Items : String
  CollectionFormat : String
  Default : String
  deriving DecidableEq, Repr

structure Operation where
  Tags : List String
  Summary : String
  Description : String
  ExternalDocumentation : Option ExternalDocumentation
  Operationid : String
  Consumes : List String
  Produces : List String
  Parameters : List Parameter
  deriving DecidableEq, Repr

/-- The record `Paths`; a Go `map[string]T` is a list of key/value pairs. -/
structure Paths where
  Ref : String
  Operation : List (String × Operation)
  deriving DecidableEq, Repr

structure Contact where
  Name : String
  Url : String
  Email : String
  deriving DecidableEq, Repr

structure License where
  Name : String
  Url : String
  deriving DecidableEq, Repr

structure Info where
  Title : String
  Description : String
  TermsOfService : String
  Contact : Option Contact
  Version : String
  deriving DecidableEq, Repr

/-- The root record `Swagger` (the Document). -/
structure Swagger where
  Swagger : String
  Info : Option Info
  Host : String
  BasePath : String
  Schemes : List String
  Consumes : List String
  Produces : List String
  Paths : List (List (String × Paths))
  Definitions : List (List (String × Schema))
  deriving DecidableEq, Repr

/-! ## Field declarations and struct tags -/

/-- One field of a Go struct type as the source declares it: its name, its
type and the raw text of its struct tag (what stands between the back
quotes; empty when the field has no tag). -/
structure FieldDecl where
  name : String
  type : String
  tag : String
  deriving DecidableEq, Repr

def SwaggerFields : List FieldDecl :=
  [ ⟨"Swagger", "string", "json:\"swagger\" validate:\"nonzero\""⟩,
    ⟨"Info", "*Info", "json:\"info\""⟩,
    ⟨"Host", "string", "json:\"host\""⟩,
    ⟨"BasePath", "string", "json:\"basePath\""⟩,
    ⟨"Schemes", "[]string", "json:\"schemes\""⟩,
    ⟨"Consumes", "[]string", "json:\"consumes\""⟩,
    ⟨"Produces", "[]string", "json:\"produces\""⟩,
    ⟨"Paths", "[]map[string]Paths", "json:\"path\" validate:\"nonzero\""⟩,
    ⟨"Definitions", "[]map[string]Schema", "json:\"definitions\""⟩ ]

def InfoFields : List FieldDecl :=
  [ ⟨"Title", "string", "json:\"title\" validate:\"nonzero\""⟩,
    ⟨"Description", "string", "json:\"description\""⟩,
    ⟨"TermsOfService", "string", "json:\"termsOfService\""⟩,
    ⟨"Contact", "*Contact", "json:\"contact\""⟩,
    ⟨"Version", "string", "json:\"version\" validate:\"nonzero\""⟩ ]

def ContactFields : List FieldDecl :=
  [ ⟨"Name", "string", "json:\"name\""⟩,
    ⟨"Url", "string", "json:\"url\""⟩,
    ⟨"Email", "string", "json:\"email\""⟩ ]

def LicenseFields : List FieldDecl :=
  [ ⟨"Name", "string", "json:\"name\" validate:\"required\""⟩,
    ⟨"Url", "string", "json:\"url\""⟩ ]

def PathsFields : List FieldDecl :=
  [ ⟨"Ref", "string", "json:\"$ref\""⟩,
    ⟨"Operation", "map[string]Operation", ""⟩ ]

def OperationFields : List FieldDecl :=
  [ ⟨"Tags", "[]string", "json:\"tags\""⟩,
    ⟨"Summary", "string", "json:\"summary\""⟩,
    ⟨"Description", "string", "json:\"description\""⟩,
    ⟨"ExternalDocumentation", "*ExternalDocumentation", "json:\"externalDocumentation\""⟩,
    ⟨"Operationid", "string", "json:\"operationId\""⟩,
    ⟨"Consumes", "[]string", "json:\"consumes\""⟩,
    ⟨"Produces", "[]string", "json:\"produces\""⟩,
    ⟨"Parameters", "[]Parameter", "json:\"parameters\""⟩ ]

def ParameterFields : List FieldDecl :=
  [ ⟨"Name", "string", "json:\"name\" validate:\"nonzero\""⟩,
    ⟨"In", "string", "json:\"in\" validate:\"nonzero\""⟩,
    ⟨"Description", "string", "json:\"description\""⟩,
    ⟨"Required", "bool", "json:\"required\""⟩,
    ⟨"Schema", "*Schema", "json:\"schema\""⟩,
    ⟨"Type", "string", "json:\"type\" validate:\"validTypes\""⟩,
    ⟨"Format", "string", "json:\"format\" validate:\"validFormat\""⟩,
    ⟨"Items", "string", "json:\"format\" validate:\"validType\""⟩,
    ⟨"CollectionFormat", "string", "json:collectionFormat"⟩,
    ⟨"Default", "string", "json:\"default\""⟩ ]

def SchemaFields : List FieldDecl :=
  [ ⟨"Ref", "string", "json:\"$ref\""⟩,
    ⟨"Format", "string", "json:\"format\" validate:\"validFormat\""⟩,
    ⟨"Title", "string", "json:\"title\""⟩,
    ⟨"Description", "string", "json:\"description\""⟩,
    ⟨"Default", "string", "json:\"default\""⟩,
    ⟨"Discriminator", "string", "json:\"discriminator\""⟩,
    ⟨"ReadOnly", "bool", "json:\"readOnly\""⟩,
    ⟨"Xml", "*Xml", "json:\"xml\""⟩ ]

def XmlFields : List FieldDecl :=
  [ ⟨"Name", "string", "json:\"name\""⟩,
    ⟨"Namespace", "string", "json:\"namespace\""⟩,
    ⟨"Prefix", "string", "json:\"prefix\""⟩,
    ⟨"Attribute", "bool", "json:\"attribute\""⟩,
    ⟨"Wrapped", "bool", "json:\"wrapped\""⟩ ]

def ExternalDocumentationFields : List FieldDecl :=
  [ ⟨"Description", "string", "json:\"description\""⟩,
    ⟨"Url", "string", "json:\"url\" validate:\"nonzero\""⟩ ]

/-- Every record type of the model, in the order of the source, with its
fields. -/
def recordTypes : List (String × List FieldDecl) :=
  [ ("Swagger", SwaggerFields),
    ("Info", InfoFields),
    ("Contact", ContactFields),
    ("License", LicenseFields),
    ("Paths", PathsFields),
    ("Operation", OperationFields),
    ("Parameter", ParameterFields),
    ("Schema", SchemaFields),
    ("Xml", XmlFields),
    ("ExternalDocumentation", ExternalDocumentationFields) ]

/-! ### Reading a struct tag

`reflect.StructTag.Lookup`, which both `encoding/json` and the validator
library use to read a tag, on the characters of the tag.  The character
codes are 32 for the space, 34 for the double quote, 58 for the colon,
92 for the backslash, 127 for DEL, 10 for the newline and 44 for the comma.
-/

/-- The loop `for i < len(tag) && tag[i] == ' '` followed by `tag = tag[i:]`. -/
def skipSpaces : List Char → List Char
  | [] => []
  | c :: rest => if c.toNat = 32 then skipSpaces rest else c :: rest

/-- The scan to the colon: the longest prefix of characters that are above
the space and are not a colon, a double quote or DEL, with what follows. -/
def scanKey : List Char → List Char × List Char
  | [] => ([], [])
  | c :: rest =>
    if c.toNat > 32 ∧ c.toNat ≠ 58 ∧ c.toNat ≠ 34 ∧ c.toNat ≠ 127 then
      ((scanKey rest).1.cons c, (scanKey rest).2)
    else ([], c :: rest)

/-- The scan of a quoted string, started after its opening quote: the
characters up to the closing quote (a backslash takes the next character
with it) and what follows the closing quote; `none` when the tag ends
before the closing quote. -/
def scanQuoted : List Char → Option (List Char × List Char)
  | [] => none
  | [c] => if c.toNat = 34 then some ([], []) else none
  | c :: d :: rest =>
    if c.toNat = 34 then some ([], d :: rest)
    else if c.toNat = 92 then
      (scanQuoted rest).map (fun r => (c :: d :: r.1, r.2))
    else
      match scanQuoted (d :: rest) with
      | some r => some (c :: r.1, r.2)
      | none => none

/-- The call `strconv.Unquote` on a double-quoted string, given the
characters between the quotes: a string without backslash and newline is
its own value.  Escape sequences are not interpreted (the result is then
`none`); no tag of the source has one. -/
def unquote (inner : List Char) : Option String :=
  if inner.any (fun c => c.toNat = 92 || c.toNat = 10) then none
  else some (String.mk inner)

/-- The loop of `StructTag.Lookup`; `fuel` bounds the number of key/value
pairs read and is taken larger than the length of the tag. -/
def lookupLoop (key : String) : Nat → List Char → Option String
  | 0, _ => none
  | fuel + 1, tag =>
    match skipSpaces tag with
    | [] => none
    | t =>
      match (scanKey t).1, (scanKey t).2 with
      | [], _ => none
      | name, colon :: quote :: rest =>
        if colon.toNat = 58 ∧ quote.toNat = 34 then
          match scanQuoted rest with
          | none => none
          | some (qvalue, tag1) =>
            if key = String.mk name then unquote qvalue
            else lookupLoop key fuel tag1
        else none
      | _, _ => none

/-- The method `StructTag.Lookup`. -/
def StructTag.Lookup (tag key : String) : Option String :=
  lookupLoop key (tag.length + 1) tag.data

/-- The method `StructTag.Get`: the value of `key`, or the empty string. -/
def StructTag.Get (tag key : String) : String :=
  (StructTag.Lookup tag key).getD ""

/-- Split a list of characters at every comma. -/
def splitComma : List Char → List (List Char)
  | [] => [[]]
  | c :: rest =>
    if c.toNat = 44 then [] :: splitComma rest
    else
      match splitComma rest with
      | [] => [[c]]
      | part :: parts => (c :: part) :: parts

/-- The characters `encoding/json` accepts in a name given by a tag
(`isValidTag`), for ASCII characters. -/
def isValidTagChar (c : Char) : Bool :=
  c.isAlphanum || "!#$%&()*+-./:;<=>?@[]^_\x7b|\x7d~ ".data.contains c

/-- The name `encoding/json` binds to a field: `none` when the `json` tag is
`-` (the field is skipped), the part of the `json` tag before its first
comma when that is a valid non-empty name, and the Go name of the field
otherwise. -/
def wireName (f : FieldDecl) : Option String :=
  let tag := StructTag.Get f.tag "json"
  if tag = "-" then none
  else
    let name := (splitComma tag.data).headD []
    if !name.isEmpty && name.all isValidTagChar then some (String.mk name)
    else some f.name

/-- The wire names of the fields of a record type, in declaration order. -/
def wireNames (fields : List FieldDecl) : List String :=
  fields.filterMap wireName

/-- Drop the spaces at both ends (`strings.Trim(s, " ")`). -/
def trimSpaces (s : List Char) : List Char :=
  ((s.dropWhile (fun c => c.toNat = 32)).reverse.dropWhile (fun c => c.toNat = 32)).reverse

/-- The validator names the validator library reads from the `validate` tag
of a field: none when the tag is empty or `-`; otherwise the tag is split at
its commas and the name of each part is what precedes its first `=`,
without the spaces around it. -/
def validatorNames (f : FieldDecl) : List String :=
  let tag := StructTag.Get f.tag "validate"
  if tag = "" ∨ tag = "-" then []
  else (splitComma tag.data).map
    (fun part => String.mk (trimSpaces (part.takeWhile (fun c => c.toNat ≠ 61))))

/-- The validator bindings of a record type: each field that has validators,
with their names. -/
def bindings (fields : List FieldDecl) : List (String × List String) :=
  (fields.map (fun f => (f.name, validatorNames f))).filter (fun b => !b.2.isEmpty)

/-- Every validator name bound to some field of some record type, in the
order of the source. -/
def allValidatorNames : List String :=
  recordTypes.flatMap (fun r => r.2.flatMap validatorNames)

/-! ## The validator registry -/

/-- The type `validator.ValidationFunc`. -/
abbrev ValidationFunc := Value → String → Option Error

/-- The map `validationFuncs` of the validator library's package-level
default validator: validator names with the functions they are bound to,
at most one entry per name. -/
abbrev Registry := List (String × ValidationFunc)

/-- The function a registry binds to a name, if any. -/
def Registry.lookup (reg : Registry) (name : String) : Option ValidationFunc :=
  match reg with
  | [] => none
  | (n, f) :: rest => if n = name then some f else Registry.lookup rest name

/-- The library function `validator.SetValidationFunc(name, vf)`: an empty
name is an error; a `nil` function (`none`) removes the binding of `name`;
otherwise `name` is bound to `vf`, replacing an earlier binding. -/
def SetValidationFunc (reg : Registry) (name : String) (vf : Option ValidationFunc) :
    Registry × Option Error :=
  if name = "" then (reg, some (.errorString "name cannot be empty"))
  else
    match vf with
    | none => (reg.filter (fun e => e.1 ≠ name), none)
    | some f => ((name, f) :: reg.filter (fun e => e.1 ≠ name), none)

/-! ## Decoding -/

/-- A byte buffer (`[]byte`): every element is below 256. -/
abbrev Bytes := List Nat

/-- The behaviour of a JSON decoder called as `Unmarshal(data, v)` with a
target `v` of type `*Swagger`: `none` is the `nil` pointer and `some d` a
pointer to a record that holds `d`.  The result is what the target points to
after the call, and the error. -/
abbrev UnmarshalFn := Bytes → Option Swagger → Option Swagger × Option Error

/-- The library function `json.Unmarshal` for a target of type `*Swagger`.
It first checks that `data` is well-formed JSON (`checkValid`: `none` when it
is, the syntax error otherwise); then it rejects a `nil` target with an
`InvalidUnmarshalError` carrying the type of the target; only then does it
decode into the record the target points to (`decodeInto`, which gives the
record after decoding and the error, if any).  The syntax check and the
decoder proper are parameters. -/
def jsonUnmarshal (checkValid : Bytes → Option Error)
    (decodeInto : Bytes → Swagger → Swagger × Option Error) : UnmarshalFn :=
  fun data v =>
    match checkValid data with
    | some err => (v, some err)
    | none =>
      match v with
      | none => (none, some (.InvalidUnmarshalError "*model.Swagger"))
      | some d => (some (decodeInto data d).1, (decodeInto data d).2)

/-- What a call of `NewSwagger` gives: the two results of the Go function and
the validator registry as the call leaves it. -/
structure NewSwaggerResult where
  swagger : Option Swagger
  err : Option Error
  registry : Registry

/-- The function `NewSwagger`, for a JSON decoder `Unmarshal` and a validator
registry `reg` at the time of the call.  The variable `swagger` is declared
without a value, so it holds the `nil` pointer; it is passed to `Unmarshal`
by value, so it still holds the `nil` pointer after the call. -/
def NewSwagger (Unmarshal : UnmarshalFn) (reg : Registry) (jsonBytes : Bytes) :
    NewSwaggerResult :=
  let swagger : Option Swagger := none
  match (Unmarshal jsonBytes swagger).2 with
  | some err => ⟨none, some err, reg⟩
  | none =>
    match SetValidationFunc reg "validScheme" (some validScheme) with
    | (reg1, some err) => ⟨none, some err, reg1⟩
    | (reg1, none) =>
      match SetValidationFunc reg1 "validFormat" (some validFormat) with
      | (reg2, some err) => ⟨none, some err, reg2⟩
      | (reg2, none) => ⟨swagger, none, reg2⟩

/-! ## Looking up a field of a record type -/

/-- The fields of the record type called `record`, if the model has it. -/
def fieldsOf (record : String) : Option (List FieldDecl) :=
  (recordTypes.find? (fun r => r.1 = record)).map (fun r => r.2)

/-- The declaration of the field `field` of the record type `record`. -/
def fieldOf (record field : String) : Option FieldDecl :=
  (fieldsOf record).bind (fun fields => fields.find? (fun f => f.name = field))

/-- The validator names bound to the field `field` of the record type
`record`: `none` when there is no such field, the empty list when the field
has no validator. -/
def validatorsOf (record field : String) : Option (List String) :=
  (fieldOf record field).map validatorNames

/-- The wire name of the field `field` of the record type `record`. -/
def wireNameOf (record field : String) : Option String :=
  (fieldOf record field).bind wireName

/-! ## The kind of a value -/

/-- The kinds that the validators tell apart in `switch st.Kind()`:
`reflect.String`, `reflect.Slice`, and every other kind. -/
inductive Kind where
  | string
  | slice
  | other
  deriving DecidableEq, Repr

/-- The method `reflect.Value.Kind`. -/
def Value.kind : Value → Kind
  | .str _ => .string
  | .strSlice _ => .slice
  | .otherSlice _ _ => .slice
  | .other => .other

/-! ## Helper lemmas -/

theorem isValidValue_eq_true_iff (value : String) (validValues : List String) :
    isValidValue value validValues = true ↔ value ∈ validValues := by
  induction validValues with
  | nil => simp [isValidValue]
  | cons x rest ih =>
    by_cases h : value = x
    · simp [isValidValue, h]
    · simp [isValidValue, h, ih]

theorem collectBadSchemes_eq (acc xs : List String) :
    collectBadSchemes acc xs
      = acc ++ xs.filter (fun x => !isValidValue x validSchemes) := by
  induction xs generalizing acc with
  | nil => simp [collectBadSchemes]
  | cons x rest ih =>
    by_cases h : isValidValue x validSchemes = true
    · simp [collectBadSchemes, h, ih]
    · simp [collectBadSchemes, h, ih]

theorem collectBadSchemes_nil (xs : List String) :
    collectBadSchemes [] xs = xs.filter (fun x => !isValidValue x validSchemes) := by
  simp [collectBadSchemes_eq]

theorem mem_validSchemes_iff (s : String) :
    s ∈ validSchemes ↔ (s = "http" ∨ s = "https" ∨ s = "ws" ∨ s = "wss") := by
  simp [validSchemes]

theorem Registry.lookup_filter_ne (reg : Registry) (n m : String) (h : n ≠ m) :
    Registry.lookup (reg.filter (fun e => e.1 ≠ n)) m = Registry.lookup reg m := by
  induction reg with
  | nil => rfl
  | cons e rest ih =>
    obtain ⟨k, f⟩ := e
    by_cases hk : k = n
    · have hkm : ¬ k = m := fun hm => h (hk.symm.trans hm)
      rw [List.filter_cons_of_neg (by simpa using hk)]
      simp only [Registry.lookup, hkm, if_false]
      exact ih
    · rw [List.filter_cons_of_pos (by simpa using hk)]
      by_cases hkm : k = m
      · simp only [Registry.lookup, hkm, if_true]
      · simp only [Registry.lookup, hkm, if_false]
        exact ih

theorem SetValidationFunc_lookup_ne (reg : Registry) (n m : String) (f : ValidationFunc)
    (h : n ≠ m) :
    Registry.lookup (SetValidationFunc reg n (some f)).1 m = Registry.lookup reg m := by
  unfold SetValidationFunc
  by_cases hn : n = ""
  · simp only [hn, if_true]
  · simp only [hn, if_false, Registry.lookup, h]
    exact Registry.lookup_filter_ne reg n m h

theorem NewSwagger_eq (Unmarshal : UnmarshalFn) (reg : Registry) (jsonBytes : Bytes) :
    NewSwagger Unmarshal reg jsonBytes =
      match (Unmarshal jsonBytes none).2 with
      | some err => ⟨none, some err, reg⟩
      | none => ⟨none, none,
          (SetValidationFunc (SetValidationFunc reg "validScheme" (some validScheme)).1
            "validFormat" (some validFormat)).1⟩ := by
  simp only [NewSwagger]
  cases h : (Unmarshal jsonBytes none).2 with
  | some e => rfl
  | none => simp [SetValidationFunc]

/-! ## The validators on strings and on sequences of strings -/

/-- C1: on a string, `validScheme` returns no error exactly when the string
is one of http, https, ws, wss; every other string, the empty one included,
gives an error. -/
theorem validScheme_string_iff (s param : String) :
    validScheme (.str s) param = none ↔
      (s = "http" ∨ s = "https" ∨ s = "ws" ∨ s = "wss") := by
  rw [← mem_validSchemes_iff, ← isValidValue_eq_true_iff]
  by_cases h : isValidValue s validSchemes = true <;> simp [validScheme, h]

/-- C2: on a sequence of strings, `validScheme` returns an error exactly when
some element is not one of http, https, ws, wss; the empty sequence is
accepted. -/
theorem validScheme_slice_iff (xs : List String) (param : String) :
    (validScheme (.strSlice xs) param ≠ none ↔
      ∃ x ∈ xs, ¬ (x = "http" ∨ x = "https" ∨ x = "ws" ∨ x = "wss")) ∧
    validScheme (.strSlice []) param = none := by
  refine ⟨?_, by simp [validScheme, Value.elemStrings, collectBadSchemes]⟩
  simp only [validScheme, Value.elemStrings, collectBadSchemes_nil]
  by_cases h : (xs.filter (fun x => !isValidValue x validSchemes)).length > 0
  · have hne : xs.filter (fun x => !isValidValue x validSchemes) ≠ [] := by
      intro h0
      simp [h0] at h
    obtain ⟨x, hx⟩ := List.exists_mem_of_ne_nil _ hne
    rw [List.mem_filter] at hx
    have hx2 : ¬ isValidValue x validSchemes = true := by simpa using hx.2
    rw [isValidValue_eq_true_iff, mem_validSchemes_iff] at hx2
    simp only [h, if_true, ne_eq, not_false_eq_true, true_iff, reduceCtorEq]
    exact ⟨x, hx.1, hx2⟩
  · simp only [h, if_false, ne_eq, not_true_eq_false, false_iff]
    rintro ⟨x, hx, hbad⟩
    apply h
    apply List.length_pos_of_mem (a := x)
    rw [List.mem_filter]
    refine ⟨hx, ?_⟩
    rw [← mem_validSchemes_iff, ← isValidValue_eq_true_iff] at hbad
    simpa using hbad

/-- C3: when a sequence of strings has an element outside http, https, ws,
wss, the error of `validScheme` has the message "Invalid schemes: [" followed
by the elements outside the set, in their order in the sequence and with
duplicates kept, joined by a comma, followed by "]". -/
theorem validScheme_slice_message (xs : List String) (param : String)
    (h : ∃ x ∈ xs, ¬ (x = "http" ∨ x = "https" ∨ x = "ws" ∨ x = "wss")) :
    validScheme (.strSlice xs) param =
      some (.errorString ("Invalid schemes: [" ++
        ",".intercalate (xs.filter (fun x =>
          decide (¬ (x = "http" ∨ x = "https" ∨ x = "ws" ∨ x = "wss")))) ++ "]")) := by
  have hfilter : xs.filter (fun x => !isValidValue x validSchemes)
      = xs.filter (fun x =>
          decide (¬ (x = "http" ∨ x = "https" ∨ x = "ws" ∨ x = "wss"))) := by
    apply List.filter_congr
    intro x _
    by_cases hx : isValidValue x validSchemes = true
    · have hx2 := (mem_validSchemes_iff x).1 ((isValidValue_eq_true_iff _ _).1 hx)
      simp [hx, hx2]
    · have hx2 : ¬ (x = "http" ∨ x = "https" ∨ x = "ws" ∨ x = "wss") := fun hm =>
        hx ((isValidValue_eq_true_iff _ _).2 ((mem_validSchemes_iff x).2 hm))
      simp only [Bool.not_eq_true] at hx
      simp [hx, hx2]
  obtain ⟨x, hx, hbad⟩ := h
  have hpos : (xs.filter (fun x =>
      decide (¬ (x = "http" ∨ x = "https" ∨ x = "ws" ∨ x = "wss")))).length > 0 := by
    apply List.length_pos_of_mem (a := x)
    rw [List.mem_filter]
    exact ⟨hx, by simpa using hbad⟩
  simp only [validScheme, Value.elemStrings, collectBadSchemes_nil, hfilter, hpos, if_true]

/-- C3, at the sequence http, ftp, carrierpigeon: the message lists ftp and
carrierpigeon. -/
theorem validScheme_slice_message_witness :
    (∃ x ∈ ["http", "ftp", "carrierpigeon"],
      ¬ (x = "http" ∨ x = "https" ∨ x = "ws" ∨ x = "wss")) ∧
    validScheme (.strSlice ["http", "ftp", "carrierpigeon"]) "" =
      some (.errorString "Invalid schemes: [ftp,carrierpigeon]") :=
  ⟨⟨"ftp", by decide, by decide⟩,
   (validScheme_slice_message ["http", "ftp", "carrierpigeon"] ""
      ⟨"ftp", by decide, by decide⟩).trans (by decide)⟩

/-- C4, as the claim states it, fails at the empty string: `validFormat`
rejects the empty string, with the message "Invalid type format: ''". -/
theorem validFormat_empty_rejected :
    validFormat (.str "") "" = some (.errorString "Invalid type format: ''") ∧
    ¬ (validFormat (.str "") "" = none ↔
        ("" = "" ∨ "" ∈ ["int32", "int64", "float", "double", "string", "byte",
          "boolean", "date", "date-time"])) := by
  decide

/-- C4, amended: on a string, `validFormat` returns no error exactly when the
string is one of int32, int64, float, double, string, byte, boolean, date,
date-time; the empty string is not accepted. -/
theorem validFormat_string_iff (s param : String) :
    validFormat (.str s) param = none ↔
      (s = "int32" ∨ s = "int64" ∨ s = "float" ∨ s = "double" ∨ s = "string" ∨
        s = "byte" ∨ s = "boolean" ∨ s = "date" ∨ s = "date-time") := by
  have hmem : s ∈ validFormats ↔
      (s = "int32" ∨ s = "int64" ∨ s = "float" ∨ s = "double" ∨ s = "string" ∨
        s = "byte" ∨ s = "boolean" ∨ s = "date" ∨ s = "date-time") := by
    simp [validFormats]
  rw [← hmem, ← isValidValue_eq_true_iff]
  by_cases h : isValidValue s validFormats = true <;> simp [validFormat, h]

/-- C5: on a string, `validType` returns no error exactly when the string is
one of string, number, integer, boolean, array, file; every other string, the
empty one included, gives an error. -/
theorem validType_string_iff (s param : String) :
    validType (.str s) param = none ↔
      (s = "string" ∨ s = "number" ∨ s = "integer" ∨ s = "boolean" ∨
        s = "array" ∨ s = "file") := by
  have hmem : s ∈ validTypes ↔
      (s = "string" ∨ s = "number" ∨ s = "integer" ∨ s = "boolean" ∨
        s = "array" ∨ s = "file") := by
    simp [validTypes]
  rw [← hmem, ← isValidValue_eq_true_iff]
  by_cases h : isValidValue s validTypes = true <;> simp [validType, h]

/-! ## `NewSwagger` -/

/-- C6: `NewSwagger` with the decoder `json.Unmarshal` returns no Document
and an error for every buffer; when the buffer is well-formed JSON the error
is the `InvalidUnmarshalError` for the `nil` target of type `*model.Swagger`,
otherwise it is the syntax error. -/
theorem NewSwagger_jsonUnmarshal_fails (checkValid : Bytes → Option Error)
    (decodeInto : Bytes → Swagger → Swagger × Option Error) (reg : Registry)
    (jsonBytes : Bytes) :
    (NewSwagger (jsonUnmarshal checkValid decodeInto) reg jsonBytes).swagger = none ∧
    (NewSwagger (jsonUnmarshal checkValid decodeInto) reg jsonBytes).err =
      some ((checkValid jsonBytes).getD (.InvalidUnmarshalError "*model.Swagger")) := by
  cases h : checkValid jsonBytes <;> simp [NewSwagger, jsonUnmarshal, h]

/-- C7: whenever `NewSwagger` returns an error, the Document it returns is
`nil`, whatever the decoder and the registry are. -/
theorem NewSwagger_error_no_document (Unmarshal : UnmarshalFn) (reg : Registry)
    (jsonBytes : Bytes)
    (_h : (NewSwagger Unmarshal reg jsonBytes).err ≠ none) :
    (NewSwagger Unmarshal reg jsonBytes).swagger = none := by
  rw [NewSwagger_eq]
  cases (Unmarshal jsonBytes none).2 <;> rfl

/-- C7, at the buffer that holds the two bytes of an empty JSON object, decoded
by `json.Unmarshal` with a syntax check that accepts it. -/
theorem NewSwagger_error_no_document_witness :
    (NewSwagger (jsonUnmarshal (fun _ => none) (fun _ d => (d, none))) [] [123, 125]).err
      ≠ none ∧
    (NewSwagger (jsonUnmarshal (fun _ => none) (fun _ d => (d, none))) [] [123, 125]).swagger
      = none :=
  ⟨by decide,
   NewSwagger_error_no_document (jsonUnmarshal (fun _ => none) (fun _ d => (d, none))) []
     [123, 125] (by decide)⟩

/-! ## Field bindings -/

/-- C9: two validator names bound to fields are outside nonzero, validScheme,
validFormat, validType: `License.Name` is bound to required and
`Parameter.Type` to validTypes. -/
theorem validatorNames_outside_the_four :
    bindings LicenseFields = [("Name", ["required"])] ∧
    bindings ParameterFields =
      [("Name", ["nonzero"]), ("In", ["nonzero"]), ("Type", ["validTypes"]),
       ("Format", ["validFormat"]), ("Items", ["validType"])] ∧
    allValidatorNames.filter
      (fun n => decide (n ∉ ["nonzero", "validScheme", "validFormat", "validType"]))
      = ["required", "validTypes"] ∧
    ¬ (∀ n ∈ allValidatorNames,
        n ∈ ["nonzero", "validScheme", "validFormat", "validType"]) := by
  decide

/-- C10: the wire names of the fields of the root record `Swagger` are
swagger, info, host, basePath, schemes, consumes, produces, path,
definitions: the eighth is path, not paths. -/
theorem wireNames_SwaggerFields :
    wireNames SwaggerFields =
      ["swagger", "info", "host", "basePath", "schemes", "consumes", "produces",
       "path", "definitions"] ∧
    wireNames SwaggerFields ≠
      ["swagger", "info", "host", "basePath", "schemes", "consumes", "produces",
       "paths", "definitions"] := by
  decide

/-- C11: the field `Type` of `Parameter` is bound to the name validTypes, not
to validType (the sibling field `Items` is bound to validType), and
`NewSwagger` registers nothing under validTypes: after the call the registry
binds that name to what it was bound to before. -/
theorem Parameter_Type_bound_to_validTypes :
    validatorsOf "Parameter" "Type" = some ["validTypes"] ∧
    validatorsOf "Parameter" "Type" ≠ some ["validType"] ∧
    validatorsOf "Parameter" "Items" = some ["validType"] ∧
    (∀ (Unmarshal : UnmarshalFn) (reg : Registry) (jsonBytes : Bytes),
      Registry.lookup (NewSwagger Unmarshal reg jsonBytes).registry "validTypes"
        = Registry.lookup reg "validTypes") := by
  refine ⟨by decide, by decide, by decide, ?_⟩
  intro Unmarshal reg jsonBytes
  rw [NewSwagger_eq]
  cases (Unmarshal jsonBytes none).2 with
  | some e => rfl
  | none =>
    show Registry.lookup (SetValidationFunc (SetValidationFunc reg "validScheme"
      (some validScheme)).1 "validFormat" (some validFormat)).1 "validTypes" = _
    rw [SetValidationFunc_lookup_ne _ "validFormat" "validTypes" validFormat (by decide),
      SetValidationFunc_lookup_ne _ "validScheme" "validTypes" validScheme (by decide)]

/-- C12: the field `Schemes` of the root record `Swagger` has no validator:
the only bindings of `Swagger` are nonzero on `Swagger` and on `Paths`, and
no field of any record type is bound to validScheme. -/
theorem Swagger_Schemes_has_no_validator :
    fieldOf "Swagger" "Schemes" = some ⟨"Schemes", "[]string", "json:\"schemes\""⟩ ∧
    validatorsOf "Swagger" "Schemes" = some [] ∧
    bindings SwaggerFields = [("Swagger", ["nonzero"]), ("Paths", ["nonzero"])] ∧
    "validScheme" ∉ allValidatorNames := by
  decide

/-- C13: each of `Swagger.Swagger`, `Swagger.Paths`, `Info.Title`,
`Info.Version`, `Parameter.Name`, `Parameter.In` and
`ExternalDocumentation.Url` is bound to the validator nonzero. -/
theorem required_fields_bound_to_nonzero :
    validatorsOf "Swagger" "Swagger" = some ["nonzero"] ∧
    validatorsOf "Swagger" "Paths" = some ["nonzero"] ∧
    validatorsOf "Info" "Title" = some ["nonzero"] ∧
    validatorsOf "Info" "Version" = some ["nonzero"] ∧
    validatorsOf "Parameter" "Name" = some ["nonzero"] ∧
    validatorsOf "Parameter" "In" = some ["nonzero"] ∧
    validatorsOf "ExternalDocumentation" "Url" = some ["nonzero"] := by
  decide

/-- C14: in `Parameter` the fields `Items` and `Format` have the same wire
name, format, so the wire names of `Parameter` are not pairwise distinct. -/
theorem Parameter_Items_Format_same_wireName :
    wireNameOf "Parameter" "Items" = some "format" ∧
    wireNameOf "Parameter" "Format" = some "format" ∧
    ¬ (wireNames ParameterFields).Nodup := by
  decide

/-! ## Relations between the validators -/

/-- C15: the three validators do not depend on their parameter string: for
every value and every two parameter strings each validator gives the same
result, the same error message included. -/
theorem validators_ignore_param (v : Value) (p1 p2 : String) :
    validScheme v p1 = validScheme v p2 ∧
    validFormat v p1 = validFormat v p2 ∧
    validType v p1 = validType v p2 :=
  ⟨rfl, rfl, rfl⟩

/-- C16: `isValidValue` is list membership: it is true exactly when the value
occurs in the list, and it is false on the empty list. -/
theorem isValidValue_iff_mem (value : String) (validValues : List String) :
    (isValidValue value validValues = true ↔ value ∈ validValues) ∧
    isValidValue value [] = false :=
  ⟨isValidValue_eq_true_iff value validValues, rfl⟩

/-- C17: `validScheme` gives an error on the one-element sequence that holds
`s` exactly when it gives an error on the string `s`. -/
theorem validScheme_singleton_iff_string (s param : String) :
    validScheme (.strSlice [s]) param ≠ none ↔ validScheme (.str s) param ≠ none := by
  by_cases h : isValidValue s validSchemes = true
  · simp [validScheme, Value.elemStrings, collectBadSchemes, h]
  · simp [validScheme, Value.elemStrings, collectBadSchemes, h]

/-- C18: a value that is not of kind string is rejected by `validFormat` and
by `validType`, also when it is a sequence of valid strings; a value that is
neither of kind string nor of kind slice is rejected by `validScheme`. -/
theorem wrong_shape_rejected (v : Value) (param : String) (h : v.kind ≠ Kind.string) :
    validFormat v param ≠ none ∧ validType v param ≠ none ∧
    (v.kind ≠ Kind.slice → validScheme v param ≠ none) := by
  cases v with
  | str s => exact absurd rfl h
  | strSlice xs => exact ⟨by simp [validFormat], by simp [validType], fun hk => absurd rfl hk⟩
  | otherSlice t n =>
    exact ⟨by simp [validFormat], by simp [validType], fun hk => absurd rfl hk⟩
  | other => exact ⟨by simp [validFormat], by simp [validType], fun _ => by simp [validScheme]⟩

/-- C18, at the sequence that holds the one valid string "string" and at a
value of another kind. -/
theorem wrong_shape_rejected_witness :
    (Value.kind (.strSlice ["string"]) ≠ Kind.string ∧
      validFormat (.strSlice ["string"]) "" ≠ none ∧
      validType (.strSlice ["string"]) "" ≠ none) ∧
    (Value.kind .other ≠ Kind.string ∧ Value.kind .other ≠ Kind.slice ∧
      validScheme .other "" ≠ none) :=
  ⟨⟨by decide, (wrong_shape_rejected (.strSlice ["string"]) "" (by decide)).1,
      (wrong_shape_rejected (.strSlice ["string"]) "" (by decide)).2.1⟩,
   ⟨by decide, by decide,
      (wrong_shape_rejected .other "" (by decide)).2.2 (by decide)⟩⟩

end Model
